import Mathlib

/-!
Verification development for the research-paper RAG assessment pipeline.

This file embeds, in Lean, the core algorithms of the repository:
the sentence chunker (`src/services/chunking.py`), the scope detector,
re-ranker, citation extractor, confidence scorer and answer orchestrator
(`src/services/rag_pipeline.py`), and proves or refutes the specified
properties about them.

Modelling conventions:
- Python strings are Lean `String`s (ASCII behaviour of `lower`, `strip`
  and the regex character classes is modelled exactly; the code only ever
  feeds ASCII pattern constants to these operations).
- Python floats are modelled as rationals (`ℚ`); `round(x, 2)` is modelled
  as round-half-to-even at two decimals, which is Python's rounding mode.
- Python dict keys that may be absent or `None` are `Option` fields.
- External collaborators (vector search, the cross-encoder, the LLM, the
  paper database) are parameters: functions or data passed in, with
  `Option`-valued results modelling raised exceptions where the code
  catches them.
-/

namespace RagAssess

/-- The apostrophe character, U+0027. -/
def sqChar : Char := Char.ofNat 39

/-- The apostrophe as a one-character string. -/
def sq : String := String.singleton sqChar

/-- The double-quote character, U+0022. -/
def dqChar : Char := Char.ofNat 34

/-- ASCII whitespace as matched by Python's `str.strip` / regex `\s`
(space, tab, newline, carriage return, vertical tab, form feed). -/
def isPySpaceChar (c : Char) : Bool :=
  c == ' ' || c == '\t' || c == '\n' || c == '\r' || c == '\x0b' || c == '\x0c'

/-- Python `str.strip()`: remove leading and trailing whitespace. -/
def pyStrip (s : String) : String :=
  String.mk (((s.toList.dropWhile isPySpaceChar).reverse.dropWhile isPySpaceChar).reverse)

/-- Python `str.lower()` (ASCII). -/
def pyLowerStr (s : String) : String :=
  String.mk (s.toList.map Char.toLower)

/-- Python `a or b` for a possibly-absent / possibly-empty string `a`:
`None` and `""` are falsy and fall through to `b`. -/
def pyOrStr (a : Option String) (b : String) : String :=
  match a with
  | none => b
  | some s => if s = "" then b else s

/-- Does `pat` occur at the start of `s` (on character lists)? -/
def startsWithL : List Char → List Char → Bool
  | [], _ => true
  | _ :: _, [] => false
  | p :: ps, c :: cs => p == c && startsWithL ps cs

/-- Python `needle in hay` substring test, on character lists. -/
def containsL (pat : List Char) : List Char → Bool
  | [] => startsWithL pat []
  | c :: cs => startsWithL pat (c :: cs) || containsL pat cs

/-- Python `needle in hay` substring test, on strings. -/
def containsStr (hay needle : String) : Bool :=
  containsL needle.toList hay.toList

/-- Python `s.startswith(pre)`. -/
def pyStartsWith (s pre : String) : Bool :=
  startsWithL pre.toList s.toList

/-- Keep the first occurrence of each element, dropping later duplicates
(the `seen`-set loop used by the pipeline). -/
def dedupFirstSeenAux {α : Type} [DecidableEq α] (seen : List α) : List α → List α
  | [] => []
  | x :: xs =>
    if x ∈ seen then dedupFirstSeenAux seen xs
    else x :: dedupFirstSeenAux (x :: seen) xs

/-- First-seen order deduplication of a list. -/
def dedupFirstSeen {α : Type} [DecidableEq α] (l : List α) : List α :=
  dedupFirstSeenAux [] l

/-! ## Chunker (`src/services/chunking.py`) -/

/-- A sentence record `{text, page, section}` produced by the PDF extractor.
The section may be absent (`None` in Python). -/
structure Sentence where
  text : String
  page : Int
  sectionName : Option String
deriving DecidableEq

/-- A chunk record `{text, section, page_start, page_end, chunk_index}`
as built by `flush_buffer`; `sectionName` is the raw section of the first
buffered sentence. -/
structure Chunk where
  text : String
  sectionName : Option String
  page_start : Int
  page_end : Int
  chunk_index : Nat
deriving DecidableEq

/-- The loop state of `chunk_sentences`: emitted chunks, the accumulation
buffer with its character length, the next chunk index, and the current
section (`None` before the first sentence). -/
structure ChunkState where
  chunks : List Chunk
  buf : List Sentence
  buf_len : Int
  chunk_index : Nat
  current_section : Option String
deriving DecidableEq

/-- The page of the last sentence of `s :: rest` (Python `buf[-1]["page"]`). -/
def lastSentencePage : Sentence → List Sentence → Int
  | s, [] => s.page
  | _, s :: rest => lastSentencePage s rest

/-- The overlap tail: iterate the buffer in reverse, prepending sentences
while the running length stays within `overlap_chars`; returns the tail and
its length (the `tail` / `tail_len` loop of `flush_buffer`). -/
def takeTailAux (overlap_chars : Int) : List Sentence → List Sentence → Int → List Sentence × Int
  | [], tail, tail_len => (tail, tail_len)
  | s :: rest, tail, tail_len =>
    if tail_len + (s.text.length : Int) + 1 > overlap_chars then (tail, tail_len)
    else takeTailAux overlap_chars rest (s :: tail) (tail_len + (s.text.length : Int) + 1)

/-- `flush_buffer` from `chunk_sentences`: emit a chunk from a non-empty
buffer (text joined with single spaces then stripped, section and
`page_start` from the first sentence, `page_end` from the last), bump the
index, then retain the overlap tail when `overlap_chars > 0`. -/
def flushBuffer (overlap_chars : Int) (st : ChunkState) : ChunkState :=
  match st.buf with
  | [] => st
  | b0 :: rest =>
    let buf := b0 :: rest
    let text := pyStrip (String.intercalate " " (buf.map Sentence.text))
    let c : Chunk :=
      { text := text
        sectionName := b0.sectionName
        page_start := b0.page
        page_end := lastSentencePage b0 rest
        chunk_index := st.chunk_index }
    let st1 : ChunkState := { st with chunks := st.chunks ++ [c], chunk_index := st.chunk_index + 1 }
    if overlap_chars > 0 then
      let t := takeTailAux overlap_chars buf.reverse [] 0
      { st1 with buf := t.1, buf_len := t.2 }
    else
      { st1 with buf := [], buf_len := 0 }

/-- The `if current_section is None` initialization of the loop. -/
def chunkInitSection (st : ChunkState) (sec : String) : ChunkState :=
  if st.current_section = none then { st with current_section := some sec } else st

/-- The section-change flush: `if sec != current_section and buf`, flush and
switch `current_section` to the new section. -/
def chunkSecFlush (overlap_chars : Int) (st : ChunkState) (sec : String) : ChunkState :=
  if st.current_section ≠ some sec ∧ st.buf ≠ [] then
    { (flushBuffer overlap_chars st) with current_section := some sec }
  else st

/-- The size flush: `if buf_len + s_len > max_chars and buf`, flush. -/
def chunkMaxFlush (max_chars overlap_chars : Int) (st : ChunkState) (s_len : Int) : ChunkState :=
  if max_chars < st.buf_len + s_len ∧ st.buf ≠ [] then flushBuffer overlap_chars st
  else st

/-- One iteration of the `for s in sentences` loop of `chunk_sentences`:
normalize the section, initialize `current_section`, flush on a section
change, flush when the sentence would overflow `max_chars`, then append. -/
def chunkStep (max_chars overlap_chars : Int) (st : ChunkState) (s : Sentence) : ChunkState :=
  let sec := pyOrStr s.sectionName "Unknown"
  let s_len : Int := (s.text.length : Int) + 1
  let st3 :=
    chunkMaxFlush max_chars overlap_chars
      (chunkSecFlush overlap_chars (chunkInitSection st sec) sec) s_len
  { st3 with buf := st3.buf ++ [s], buf_len := st3.buf_len + s_len }

/-- The initial state of `chunk_sentences`. -/
def initChunkState : ChunkState := ⟨[], [], 0, 0, none⟩

/-- `chunk_sentences(sentences, max_chars, overlap_chars)`: run the loop
over all sentences and perform the final flush. -/
def chunk_sentences (sentences : List Sentence) (max_chars overlap_chars : Int) : List Chunk :=
  (flushBuffer overlap_chars (sentences.foldl (chunkStep max_chars overlap_chars) initChunkState)).chunks

/-! ## Regex scanners

Exact models of the two regular-expression scans the pipeline performs:
`re.findall(r"'([^']+)'|\"([^\"]+)\"", question)` in `_extract_quoted_titles`
and `re.findall(r'\(Source\s+(\d+)\)', text, re.IGNORECASE)` in
`extract_citations_from_answer` / `calculate_confidence`. Both scanners
reproduce `re.findall`'s leftmost, non-overlapping match semantics: scan
positions left to right and, on a match, continue after its end. -/

/-- Try to match `d(inner)d` at the head of `cs`, where `inner` is one or
more characters other than `d` (greedy, as the regex `d[^d]+d`); return the
captured inner characters and the rest of the input after the match. -/
def matchDelim (d : Char) (cs : List Char) : Option (List Char × List Char) :=
  match cs with
  | [] => none
  | c :: rest =>
    if c = d then
      let inner := rest.takeWhile (fun x => x ≠ d)
      let after := rest.dropWhile (fun x => x ≠ d)
      if inner = [] then none
      else
        match after with
        | x :: rest2 => if x = d then some (inner, rest2) else none
        | [] => none
    else none

/-- Try the single-quote alternative first, then the double-quote one,
as the regex alternation does at each scan position. -/
def matchQuoteAt (cs : List Char) : Option (List Char × List Char) :=
  match matchDelim sqChar cs with
  | some r => some r
  | none => matchDelim dqChar cs

/-- Fuelled scan for quoted phrases; the fuel (input length + 1) always
suffices because every step strictly shortens the remaining input. -/
def scanQuotesAux : Nat → List Char → List String
  | 0, _ => []
  | _ + 1, [] => []
  | fuel + 1, c :: cs =>
    match matchQuoteAt (c :: cs) with
    | some (inner, rest) => String.mk inner :: scanQuotesAux fuel rest
    | none => scanQuotesAux fuel cs

/-- `_extract_quoted_titles(question)`: all phrases inside single or double
quotes, stripped, with empty results dropped. -/
def extractQuotedTitles (question : String) : List String :=
  ((scanQuotesAux (question.toList.length + 1) question.toList).map pyStrip).filter
    (fun p => p ≠ "")

/-- Case-insensitively strip the (lower-case) pattern `pat` from the front
of `cs`, returning the rest on success. -/
def stripCI : List Char → List Char → Option (List Char)
  | [], cs => some cs
  | _ :: _, [] => none
  | p :: ps, c :: cs => if c.toLower = p then stripCI ps cs else none

/-- Numeric value of a run of ASCII digits (Python `int(...)`). -/
def digitsVal (ds : List Char) : Nat :=
  ds.foldl (fun n c => 10 * n + (c.toNat - 48)) 0

/-- Try to match `\(Source\s+(\d+)\)` (case-insensitive) at the head of
`cs`; return the captured number and the rest of the input after `)`. -/
def matchSourceAt (cs : List Char) : Option (Nat × List Char) :=
  match stripCI ['(', 's', 'o', 'u', 'r', 'c', 'e'] cs with
  | none => none
  | some rest =>
    let ws := rest.takeWhile isPySpaceChar
    let rest2 := rest.dropWhile isPySpaceChar
    if ws = [] then none
    else
      let ds := rest2.takeWhile Char.isDigit
      let rest3 := rest2.dropWhile Char.isDigit
      if ds = [] then none
      else
        match rest3 with
        | c :: rest4 => if c = ')' then some (digitsVal ds, rest4) else none
        | [] => none

/-- Fuelled scan for `(Source N)` markers, leftmost non-overlapping. -/
def findSourceRefsAux : Nat → List Char → List Nat
  | 0, _ => []
  | _ + 1, [] => []
  | fuel + 1, c :: cs =>
    match matchSourceAt (c :: cs) with
    | some (n, rest) => n :: findSourceRefsAux fuel rest
    | none => findSourceRefsAux fuel cs

/-- All `(Source N)` occurrences in `s`, in order (the `re.findall` of the
citation pattern). -/
def findSourceRefs (s : String) : List Nat :=
  findSourceRefsAux (s.toList.length + 1) s.toList

/-! ## RAG pipeline data model (`src/services/rag_pipeline.py`) -/

/-- A paper row from the relational store (the fields the scope detector
reads; `title` and `filename` are nullable columns). -/
structure Paper where
  id : Int
  title : Option String
  filename : Option String
deriving DecidableEq

/-- A retrieval context dict as built by `retrieve_context`; `original_score`
is added by `rerank_contexts`. Scores are modelled as rationals. -/
structure Context where
  text : String
  sectionName : Option String
  page_start : Option Int
  page_end : Option Int
  paper_id : Option Int
  paper_title : Option String
  paper_filename : Option String
  score : ℚ
  original_score : Option ℚ
deriving DecidableEq

/-- A citation dict as built by `extract_citations_from_answer`. -/
structure Citation where
  paper_title : Option String
  paper_filename : Option String
  paper_id : Option Int
  source_index : Nat
  sectionName : Option String
  page : String
  relevance_score : ℚ
deriving DecidableEq

/-- Python `f"{v}"` for an optional string (`None` prints as `"None"`). -/
def pyFmtOptStr : Option String → String
  | none => "None"
  | some s => s

/-- Python `f"{v}"` for an optional integer (`None` prints as `"None"`). -/
def pyFmtOptInt : Option Int → String
  | none => "None"
  | some n => toString n

/-- Round-half-to-even to an integer, Python's rounding mode for `round`
(`Rat.floor` is used rather than `⌊⌋` to keep the function kernel-reducible;
they agree definitionally). -/
def roundHalfEven (x : ℚ) : ℤ :=
  let f := Rat.floor x
  if x - f < 1 / 2 then f
  else if 1 / 2 < x - f then f + 1
  else if f % 2 = 0 then f else f + 1

/-- Python `round(x, 2)`. -/
def round2 (x : ℚ) : ℚ :=
  ((roundHalfEven (100 * x) : ℤ) : ℚ) / 100

/-! ## Scope detector (`_guess_candidate_paper_ids`) -/

/-- The transformer/attention keyword cluster. -/
def transformer_kw : List String :=
  ["attention", "transformer", "transformers", "self-attention", "bert", "gpt"]

/-- The vision keyword cluster. -/
def vision_kw : List String :=
  ["convolution", "cnn", "vision", "resnet", "image"]

/-- The reinforcement-learning keyword cluster. -/
def rl_kw : List String :=
  ["reinforcement", "rl", "agent", "policy", "reward"]

/-- The generic machine-learning keyword cluster. -/
def ml_kw : List String :=
  ["neural", "network", "machine learning", "deep learning"]

/-- The blockchain keyword cluster. -/
def blockchain_kw : List String :=
  ["blockchain", "sustainability", "bitcoin", "cryptocurrency"]

/-- The `detected_keywords` list: each cluster whose terms hit the
lower-cased question contributes all of its terms, in the code's order. -/
def detectedKeywords (q_lower : String) : List String :=
  (if transformer_kw.any (fun k => containsStr q_lower k) then transformer_kw else []) ++
  (if vision_kw.any (fun k => containsStr q_lower k) then vision_kw else []) ++
  (if rl_kw.any (fun k => containsStr q_lower k) then rl_kw else []) ++
  (if ml_kw.any (fun k => containsStr q_lower k) then ml_kw else []) ++
  (if blockchain_kw.any (fun k => containsStr q_lower k) then blockchain_kw else [])

/-- `f"{p.title or ''} {p.filename or ''}".lower()`, the searchable string
built for each paper. -/
def searchableOf (p : Paper) : String :=
  pyLowerStr (pyOrStr p.title "" ++ " " ++ pyOrStr p.filename "")

/-- Strong match: some quoted phrase of length > 5 occurs in the paper's
searchable string (`any(ph in searchable for ph in quoted if len(ph) > 5)`). -/
def strongB (quoted : List String) (p : Paper) : Bool :=
  quoted.any (fun ph => decide (5 < ph.length) && containsStr (searchableOf p) ph)

/-- Medium match: detected keywords exist and at least two of them occur in
the paper's searchable string (`kw_count >= 2`). -/
def mediumB (detected : List String) (p : Paper) : Bool :=
  !detected.isEmpty &&
    decide (2 ≤ (detected.filter (fun kw => containsStr (searchableOf p) kw)).length)

/-- The `for p in papers` loop of `_guess_candidate_paper_ids`, carrying
`(candidate_ids, strong_match_found)`. A strong match appends the id and
sets the flag (then `continue`s past the medium check); otherwise a medium
match appends the id. -/
def guessGo (quoted detected : List String) : List Paper → List Int × Bool → List Int × Bool
  | [], acc => acc
  | p :: ps, acc =>
    if strongB quoted p then guessGo quoted detected ps (acc.1 ++ [p.id], true)
    else if mediumB detected p then guessGo quoted detected ps (acc.1 ++ [p.id], acc.2)
    else guessGo quoted detected ps acc

/-- `_guess_candidate_paper_ids(question)` over the given paper rows: run
the matching loop, return `[]` when no strong match was found and fewer
than two candidates accumulated, else the candidates deduplicated in
first-seen order. -/
def guessCandidatePaperIds (papers : List Paper) (question : String) : List Int :=
  let q_lower := pyLowerStr question
  let quoted := (extractQuotedTitles question).map pyLowerStr
  let detected := detectedKeywords q_lower
  let acc := guessGo quoted detected papers ([], false)
  if ¬ acc.2 ∧ acc.1.length < 2 then [] else dedupFirstSeen acc.1

/-- Modelled from the spec's amended reading of scope-detection: collect
every strong- or medium-matched paper id in order; when at least one strong
match exists return all matched ids deduplicated, otherwise apply the
fewer-than-two-medium-matches fallback. -/
def guessSpecAmended (papers : List Paper) (question : String) : List Int :=
  let q_lower := pyLowerStr question
  let quoted := (extractQuotedTitles question).map pyLowerStr
  let detected := detectedKeywords q_lower
  let matched := papers.filterMap (fun p =>
    if strongB quoted p then some p.id
    else if mediumB detected p then some p.id else none)
  if papers.any (strongB quoted) then dedupFirstSeen matched
  else if matched.length < 2 then [] else dedupFirstSeen matched

/-! ## Re-ranker (`rerank_contexts`) -/

/-- Descending comparison on cross-encoder score for `(score, context)`
pairs; Python's stable `sort(key=..., reverse=True)` is insertion sort
under this relation. -/
def ceRel (a b : ℚ × Context) : Prop := b.1 ≤ a.1

instance : DecidableRel ceRel := fun a b => inferInstanceAs (Decidable (b.1 ≤ a.1))

instance : IsTotal (ℚ × Context) ceRel := ⟨fun a b => le_total b.1 a.1⟩

instance : IsTrans (ℚ × Context) ceRel := ⟨fun _ _ _ h1 h2 => le_trans h2 h1⟩

/-- The copy step of `rerank_contexts`: duplicate the context, keep the
vector score under `original_score` and overwrite `score` with the
cross-encoder score. -/
def applyCeScore (p : ℚ × Context) : Context :=
  { p.2 with original_score := some p.2.score, score := p.1 }

/-- `rerank_contexts(query, contexts, top_k)`. `enabled` models the
`ENABLE_CROSS_ENCODER_RERANK` flag; `predict` models the cross-encoder
scoring call, with `none` modelling a raised exception (caught by the
code's `try`, which falls back to the original contexts). `top_k = some k`
models a supplied `top_k`; the code truncates under Python truthiness
(`if top_k:`), so `some 0` does not truncate. -/
def rerank_contexts (enabled : Bool) (predict : List (String × String) → Option (List ℚ))
    (query : String) (contexts : List Context) (top_k : Option Nat) : List Context :=
  if contexts = [] then contexts
  else if ¬ enabled then contexts
  else
    match predict (contexts.map (fun c => (query, c.text))) with
    | none => contexts
    | some scores =>
      let scored := scores.zip contexts
      let sorted := List.insertionSort ceRel scored
      let reranked := sorted.map applyCeScore
      match top_k with
      | some k => if k ≠ 0 then reranked.take k else reranked
      | none => reranked

/-! ## Citation extraction (`extract_citations_from_answer`) -/

/-- Build the citation dict for 0-based index `idx` from its context
(`page` is the `f"{page_start}-{page_end}"` string, `relevance_score` the
score rounded to two decimals, `source_index` the 1-based label). -/
def buildCitation (idx : Nat) (c : Context) : Citation :=
  { paper_title := c.paper_title
    paper_filename := c.paper_filename
    paper_id := c.paper_id
    source_index := idx + 1
    sectionName := c.sectionName
    page := pyFmtOptInt c.page_start ++ "-" ++ pyFmtOptInt c.page_end
    relevance_score := round2 c.score }

/-- The `for match in matches` loop of `extract_citations_from_answer`,
carrying `(citations, seen)`: convert the matched number to a 0-based
index, and emit once per in-range index not already seen. -/
def extractCitGo (contexts : List Context) : List Nat → List Citation × List Int → List Citation × List Int
  | [], acc => acc
  | m :: ms, acc =>
    let idx : Int := (m : Int) - 1
    if 0 ≤ idx ∧ idx < contexts.length ∧ idx ∉ acc.2 then
      match contexts.get? idx.toNat with
      | some c => extractCitGo contexts ms (acc.1 ++ [buildCitation idx.toNat c], acc.2 ++ [idx])
      | none => extractCitGo contexts ms acc
    else extractCitGo contexts ms acc

/-- `extract_citations_from_answer(answer_text, contexts)`: scan for
`(Source N)` markers and run the dedup/range loop. -/
def extract_citations_from_answer (answer_text : String) (contexts : List Context) : List Citation :=
  (extractCitGo contexts (findSourceRefs answer_text) ([], [])).1

/-- Modelled from the spec's words: for each distinct `N` (first occurrence
wins, duplicates ignored) with `1 ≤ N ≤ len(contexts)` among the scanned
`(Source N)` markers, emit one citation populated from `contexts[N-1]`. -/
def citationsSpec (contexts : List Context) (seen : List Nat) : List Nat → List Citation
  | [] => []
  | n :: ns =>
    if 1 ≤ n ∧ n ≤ contexts.length ∧ n ∉ seen then
      match contexts.get? (n - 1) with
      | some c => buildCitation (n - 1) c :: citationsSpec contexts (n :: seen) ns
      | none => citationsSpec contexts (n :: seen) ns
    else citationsSpec contexts seen ns

/-! ## Confidence (`calculate_confidence`) -/

/-- The four uncertainty phrases checked against the lower-cased answer. -/
def uncertaintyPhrases : List String :=
  ["don" ++ sq ++ "t know", "not sure", "cannot answer", "insufficient information"]

/-- `calculate_confidence(contexts, answer_text)`: 0 on empty contexts,
otherwise the inverse-rank-weighted sum of the top three scores divided by
3, plus 0.1 for a `(Source N)` citation, minus 0.2 for an uncertainty
phrase, clamped to `[0, 1]` and rounded to two decimals. -/
def calculate_confidence (contexts : List Context) (answer_text : String) : ℚ :=
  if contexts = [] then 0
  else
    let avg_score : ℚ :=
      (((contexts.take 3).enum).map (fun ic => ic.2.score * (1 / ((ic.1 : ℚ) + 1)))).sum / 3
    let citation_boost : ℚ := if findSourceRefs answer_text ≠ [] then 1 / 10 else 0
    let uncertainty_penalty : ℚ :=
      if uncertaintyPhrases.any (fun p => containsStr (pyLowerStr answer_text) p) then -(1 / 5) else 0
    round2 (min 1 (max 0 (avg_score + citation_boost + uncertainty_penalty)))

/-- Modelled from the spec's words: weighted average of the top three
scores with inverse-rank weights normalized by 3, a fixed bonus for a
citation, a fixed penalty subtracted for an uncertainty phrase, clamped to
`[0, 1]` and rounded to two decimals. -/
def confidenceSpec (contexts : List Context) (answer_text : String) : ℚ :=
  let weighted : ℚ :=
    (((contexts.take 3).enum).map (fun ic => ic.2.score / ((ic.1 : ℚ) + 1))).sum / 3
  let bonus : ℚ := if findSourceRefs answer_text ≠ [] then 1 / 10 else 0
  let penalty : ℚ :=
    if uncertaintyPhrases.any (fun p => containsStr (pyLowerStr answer_text) p) then 1 / 5 else 0
  round2 (min 1 (max 0 (weighted + bonus - penalty)))

/-! ## Answer synthesizer (`answer`) -/

/-- The payload dict of an Ollama reply (`response` / `text` keys may be
absent, `raw` defaults to `""`). -/
structure LlmRespData where
  response : Option String
  text : Option String
  raw : String
deriving DecidableEq

/-- A `generate_text` reply: its `source` tag, its payload dict, and its
Python `str()` rendering (used only on the fallback branch). -/
structure LlmResp where
  source : String
  response : LlmRespData
  strRepr : String
deriving DecidableEq

/-- The answer-text unpacking of `answer` (lines 402-414): on the `http`
branch `response or text or raw`, on the `cli` branch `response or raw`,
else `str(llm_resp)`; `or` under Python truthiness. -/
def extractAnswerText (r : LlmResp) : String :=
  if r.source = "http" then pyOrStr r.response.response (pyOrStr r.response.text r.response.raw)
  else if r.source = "cli" then pyOrStr r.response.response r.response.raw
  else r.strRepr

/-- The result dict `answer` returns. `paper_ids_used = none` models the
key being absent from the dict (the guard and no-context returns build the
dict without it). -/
structure AnswerResult where
  answer : String
  citations : List Citation
  sources_used : List String
  confidence : ℚ
  paper_ids_used : Option (List Int)
deriving DecidableEq

/-- The external calls `answer` can make, recorded in order. -/
inductive CallEvent
  | scopeDetect
  | retrieveCall
  | rerankCall
  | generateCall
deriving DecidableEq

/-- The external collaborators of `answer`: the paper rows the scope
detector reads, the retrieval backend, the re-rank configuration flag and
cross-encoder, the generation backend, and `RERANK_RETRIEVAL_MULTIPLIER`. -/
structure Env where
  papers : List Paper
  retrieveFn : String → Nat → List Int → List Context
  rerankEnabled : Bool
  predictFn : List (String × String) → Option (List ℚ)
  generateFn : String → String → LlmResp
  retrievalMultiplier : Nat

/-- The greeting / small-talk patterns of the guard. -/
def nonResearchPatterns : List String :=
  ["hi", "hello", "hey", "how are you", "what" ++ sq ++ "s up", "whats up",
   "good morning", "good afternoon", "good evening",
   "thanks", "thank you", "bye", "goodbye",
   "who are you", "what are you", "your name"]

/-- The canned response returned by the guard. -/
def guardAnswerText : String :=
  "Hello! I" ++ sq ++ "m a research assistant specialized in answering questions about " ++
  "uploaded research papers. Please ask me a specific question about the papers in the " ++
  "database (e.g., " ++ sq ++ "What methodology was used?" ++ sq ++ " or " ++ sq ++
  "Explain the attention mechanism" ++ sq ++ ")."

/-- The guard's result dict: canned answer, no citations, no sources, zero
confidence, and no `paper_ids_used` key. -/
def guardResult : AnswerResult :=
  { answer := guardAnswerText, citations := [], sources_used := [], confidence := 0,
    paper_ids_used := none }

/-- The no-relevant-context result dict (also without `paper_ids_used`). -/
def noContextResult : AnswerResult :=
  { answer := "No relevant information found in the database.", citations := [],
    sources_used := [], confidence := 0, paper_ids_used := none }

/-- The guard condition of `answer`, on the stripped lower-cased query:
too short, or equal to a small-talk pattern, or starting with a pattern
followed by a space. -/
def guardBool (query : String) : Bool :=
  let q_lower := pyStrip (pyLowerStr query)
  decide (q_lower.length < 5) ||
    nonResearchPatterns.any (fun p => p == q_lower || pyStartsWith q_lower (p ++ " "))

/-- `assemble_prompt(query, contexts)`: numbered source blocks followed by
the question and the citation instruction. -/
def assemble_prompt (query : String) (contexts : List Context) : String :=
  let ctx_block := String.intercalate "\n\n" (contexts.enum.map (fun ic =>
    "[Source " ++ toString (ic.1 + 1) ++ ": " ++ pyFmtOptStr ic.2.paper_title ++
    " | Section: " ++ pyFmtOptStr ic.2.sectionName ++ " | Pages: " ++
    pyFmtOptInt ic.2.page_start ++ "-" ++ pyFmtOptInt ic.2.page_end ++ "]\n" ++ ic.2.text))
  "You are a helpful research assistant. Answer the question based STRICTLY on the provided context.\n" ++
  "IMPORTANT: Include citations in your answer using the format (Source N) where N is the source number.\n" ++
  "If the context doesn" ++ sq ++ "t contain enough information to answer confidently, say so.\n\n" ++
  "Question: " ++ query ++ "\n\nContext:\n" ++ ctx_block ++ "\n\nAnswer (include citations):"

/-- Python truthiness of an optional list (`None` and `[]` are falsy). -/
def optListTruthy {α : Type} : Option (List α) → Bool
  | some (_ :: _) => true
  | _ => false

/-- The scope-detection / retrieval / re-ranking section of `answer`
(lines 365-387): detect candidate papers when the caller supplied no
(truthy) `paper_ids`, merge the filters (the set-union branch is guarded
by both being truthy, which the code's control flow makes unreachable),
retrieve `top_k * multiplier` candidates, and re-rank when any were
retrieved. Also records the external calls made. -/
def scopeRetrieveRerank (env : Env) (query : String) (top_k : Nat)
    (paper_ids : Option (List Int)) : List Context × List CallEvent :=
  let pidsGiven := optListTruthy paper_ids
  let detected_ids : Option (List Int) :=
    if pidsGiven then none else some (guessCandidatePaperIds env.papers query)
  let calls0 : List CallEvent := if pidsGiven then [] else [CallEvent.scopeDetect]
  let merged_ids : List Int :=
    if pidsGiven && optListTruthy detected_ids then
      dedupFirstSeen (paper_ids.getD [] ++ detected_ids.getD [])
    else if pidsGiven then paper_ids.getD []
    else detected_ids.getD []
  let initial_top_k := top_k * env.retrievalMultiplier
  let contexts := env.retrieveFn query initial_top_k merged_ids
  let calls1 := calls0 ++ [CallEvent.retrieveCall]
  if contexts ≠ [] then
    (rerank_contexts env.rerankEnabled env.predictFn query contexts (some top_k),
     calls1 ++ [CallEvent.rerankCall])
  else (contexts, calls1)

/-- The contexts surviving scope detection, retrieval and re-ranking. -/
def survivingContexts (env : Env) (query : String) (top_k : Nat)
    (paper_ids : Option (List Int)) : List Context :=
  (scopeRetrieveRerank env query top_k paper_ids).1

/-- The `paper_filename` truthiness filter of the `sources_used`
comprehension (`if c.get("paper_filename")`: `None` and `""` are dropped). -/
def fileNameTruthy (c : Context) : Option String :=
  match c.paper_filename with
  | some f => if f = "" then none else some f
  | none => none

/-- `answer(query, model, top_k, paper_ids)`: guard, scope detection,
retrieval, re-ranking, generation, citation extraction and confidence,
returning the result dict together with the log of external calls made.
`sources_used` / `paper_ids_used` model the code's `list(set(...))` as
first-seen-order deduplication (the code's set ordering is unspecified). -/
def answerImpl (env : Env) (query model : String) (top_k : Nat)
    (paper_ids : Option (List Int)) : AnswerResult × List CallEvent :=
  if guardBool query then (guardResult, [])
  else
    let pr := scopeRetrieveRerank env query top_k paper_ids
    let contexts := pr.1
    if contexts = [] then (noContextResult, pr.2)
    else
      let prompt := assemble_prompt query contexts
      let llm_resp := env.generateFn prompt model
      let answer_text := extractAnswerText llm_resp
      let citations := extract_citations_from_answer answer_text contexts
      let sources_used := dedupFirstSeen (contexts.filterMap fileNameTruthy)
      let paper_ids_used := dedupFirstSeen (contexts.filterMap Context.paper_id)
      let confidence := calculate_confidence contexts answer_text
      ({ answer := pyStrip answer_text, citations := citations, sources_used := sources_used,
         confidence := confidence, paper_ids_used := some paper_ids_used },
       pr.2 ++ [CallEvent.generateCall])

/-- The guard condition as the spec states it: the trimmed lower-cased
query is empty, shorter than five characters, or matches the fixed
greeting / small-talk phrase set. -/
def guardCond (query : String) : Prop :=
  let q := pyStrip (pyLowerStr query)
  q = "" ∨ q.length < 5 ∨
    ∃ p ∈ nonResearchPatterns, p = q ∨ pyStartsWith q (p ++ " ") = true

instance (query : String) : Decidable (guardCond query) := by
  unfold guardCond
  exact inferInstance

/-! ## Concrete fixtures used by witnesses and counterexamples -/

/-- A single-sentence input used for the parameter-validation claims. -/
def sW : Sentence := ⟨"hello.", 1, some "Abstract"⟩

/-- Demo context A. -/
def ctxA : Context :=
  ⟨"Transformer uses self-attention", some "Introduction", some 3, some 3, some 1,
   some "Attention Paper", some "paper_1.pdf", 17 / 20, none⟩

/-- Demo context B. -/
def ctxB : Context :=
  ⟨"Attention allows focus", some "Methods", some 5, some 6, some 2,
   some "Attention Mechanisms", some "paper_2.pdf", 39 / 50, none⟩

/-- Demo context C. -/
def ctxC : Context :=
  ⟨"Blockchain text", some "Results", some 7, some 8, some 3,
   some "Blockchain Paper", some "paper_3.pdf", 1 / 2, none⟩

/-- A paper that only medium-matches (two transformer keywords in title). -/
def paperM : Paper := ⟨1, some "Attention Transformer Networks", some "p1.pdf"⟩

/-- A paper that strong-matches the quoted phrase of `qC2`. -/
def paperS : Paper := ⟨2, some "Sustainability in Blockchain", some "p2.pdf"⟩

/-- A question with a quoted title matching `paperS` and keywords
medium-matching `paperM`. -/
def qC2 : String :=
  "Does " ++ String.singleton dqChar ++ "sustainability in blockchain" ++
  String.singleton dqChar ++ " use attention and transformer?"

/-- The context returned by the stub retrieval backend. -/
def ctxW : Context :=
  ⟨"Attention is computed.", some "Methods", some 2, some 2, some 7,
   some "Attention Paper", some "a.pdf", 4 / 5, none⟩

/-- A stub generation reply carrying a cited answer over HTTP. -/
def respW : LlmResp := ⟨"http", ⟨some "It uses attention (Source 1).", none, ""⟩, ""⟩

/-- A stub environment: empty paper table, retrieval returning `ctxW`,
re-ranking disabled, a failing cross-encoder, the stub generator. -/
def envW : Env := ⟨[], fun _ _ _ => [ctxW], false, fun _ => none, fun _ _ => respW, 2⟩

/-- A substantive query that passes the guard. -/
def qW : String := "What is attention?"

/-! ## Chunker lemmas -/

/-- The chunk-index bookkeeping invariant of the chunk loop: the running
index equals the number of emitted chunks, whose indices are `0..n-1`. -/
def idxInv (st : ChunkState) : Prop :=
  st.chunk_index = st.chunks.length ∧
  st.chunks.map Chunk.chunk_index = List.range st.chunks.length

theorem idxInv_flushBuffer (oc : Int) (st : ChunkState) (h : idxInv st) :
    idxInv (flushBuffer oc st) := by
  obtain ⟨h1, h2⟩ := h
  unfold flushBuffer
  rcases hb : st.buf with _ | ⟨b0, rest⟩
  · exact ⟨h1, h2⟩
  · by_cases hoc : oc > 0 <;>
      simp [hoc, idxInv, h1, h2, List.range_succ]

theorem idxInv_chunkInitSection (st : ChunkState) (sec : String) (h : idxInv st) :
    idxInv (chunkInitSection st sec) := by
  unfold chunkInitSection
  split <;> exact h

theorem idxInv_chunkSecFlush (oc : Int) (st : ChunkState) (sec : String) (h : idxInv st) :
    idxInv (chunkSecFlush oc st sec) := by
  unfold chunkSecFlush
  split
  · exact idxInv_flushBuffer oc st h
  · exact h

theorem idxInv_chunkMaxFlush (mc oc : Int) (st : ChunkState) (s_len : Int) (h : idxInv st) :
    idxInv (chunkMaxFlush mc oc st s_len) := by
  unfold chunkMaxFlush
  split
  · exact idxInv_flushBuffer oc st h
  · exact h

theorem idxInv_chunkStep (mc oc : Int) (st : ChunkState) (s : Sentence) (h : idxInv st) :
    idxInv (chunkStep mc oc st s) :=
  idxInv_chunkMaxFlush mc oc _ _
    (idxInv_chunkSecFlush oc _ _ (idxInv_chunkInitSection st _ h))

theorem idxInv_foldl (mc oc : Int) :
    ∀ (l : List Sentence) (st : ChunkState), idxInv st →
      idxInv (l.foldl (chunkStep mc oc) st)
  | [], _, h => h
  | s :: l, st, h => idxInv_foldl mc oc l _ (idxInv_chunkStep mc oc st s h)

theorem chunkStep_buf_ne (mc oc : Int) (st : ChunkState) (s : Sentence) :
    (chunkStep mc oc st s).buf ≠ [] := by
  unfold chunkStep
  simp

theorem foldl_chunkStep_buf_ne (mc oc : Int) :
    ∀ (l : List Sentence) (st : ChunkState), l ≠ [] →
      ((l.foldl (chunkStep mc oc) st).buf) ≠ [] := by
  intro l
  induction l with
  | nil => intro st h; exact absurd rfl h
  | cons a t ih =>
    intro st _
    rcases t with _ | ⟨b, t2⟩
    · simpa using chunkStep_buf_ne mc oc st a
    · exact ih (chunkStep mc oc st a) (by simp)

theorem flushBuffer_chunks_ne (oc : Int) (st : ChunkState) (h : st.buf ≠ []) :
    (flushBuffer oc st).chunks ≠ [] := by
  unfold flushBuffer
  rcases hb : st.buf with _ | ⟨b0, rest⟩
  · exact absurd hb h
  · by_cases hoc : oc > 0 <;> simp [hoc]

/-- C1: the section-isolation half of the chunk boundary invariant fails.
With two sentences from sections `A` and `B` and the default parameters,
the overlap tail kept after the section-change flush carries the
section-`A` sentence into the next buffer, so the second emitted chunk has
text `"aaa bbb"` — the concatenation of a section-`A` and a section-`B`
sentence — contradicting the claim that no chunk contains sentences of two
different sections. -/
theorem chunk_sentences_mixes_sections_after_overlap_flush :
    chunk_sentences [⟨"aaa", 1, some "A"⟩, ⟨"bbb", 1, some "B"⟩] 1000 150 =
      [⟨"aaa", some "A", 1, 1, 0⟩, ⟨"aaa bbb", some "A", 1, 1, 1⟩] := by decide

/-- C10: for every input and parameters, the `chunk_index` values of the
emitted chunks are exactly `0..n-1` in emission order, and empty input
yields empty output. -/
theorem chunk_index_sequential (sentences : List Sentence) (max_chars overlap_chars : Int) :
    (chunk_sentences sentences max_chars overlap_chars).map Chunk.chunk_index =
      List.range (chunk_sentences sentences max_chars overlap_chars).length ∧
    chunk_sentences [] max_chars overlap_chars = [] := by
  constructor
  · exact (idxInv_flushBuffer overlap_chars _
      (idxInv_foldl max_chars overlap_chars sentences initChunkState ⟨rfl, rfl⟩)).2
  · rfl

/-- C6 counterexample: `chunk_sentences` performs no parameter validation.
The call with `max_chars = 2` and `overlap_chars = 5` (violating both
`overlap_chars < max_chars` and the soft size bound) is not rejected: it
produces a chunk. -/
theorem chunk_sentences_accepts_invalid_params :
    chunk_sentences [sW] 2 5 = [⟨"hello.", some "Abstract", 1, 1, 0⟩] := by decide

/-- C6 (amended): `chunk_sentences` never validates `max_chars` or
`overlap_chars`; every call on a non-empty sentence list — including calls
with `overlap_chars ≥ max_chars` or non-positive parameters — runs the
normal algorithm and produces at least one chunk. -/
theorem chunk_sentences_no_validation (sentences : List Sentence)
    (max_chars overlap_chars : Int) (h : sentences ≠ []) :
    chunk_sentences sentences max_chars overlap_chars ≠ [] :=
  flushBuffer_chunks_ne overlap_chars _
    (foldl_chunkStep_buf_ne max_chars overlap_chars sentences initChunkState h)

/-- C6 witness: the amended theorem applied at the violating parameters
`max_chars = 2`, `overlap_chars = 5` on a concrete non-empty input. -/
theorem chunk_sentences_no_validation_witness :
    ([sW] : List Sentence) ≠ [] ∧ chunk_sentences [sW] 2 5 ≠ [] :=
  ⟨by decide, chunk_sentences_no_validation [sW] 2 5 (by decide)⟩

/-! ## Scope detector lemmas -/

theorem guessGo_eq (quoted detected : List String) :
    ∀ (ps : List Paper) (ids : List Int) (flag : Bool),
      guessGo quoted detected ps (ids, flag) =
        (ids ++ ps.filterMap (fun p =>
          if strongB quoted p then some p.id
          else if mediumB detected p then some p.id else none),
         flag || ps.any (strongB quoted))
  | [], ids, flag => by simp [guessGo]
  | p :: ps, ids, flag => by
    by_cases hs : strongB quoted p
    · simp [guessGo, hs, guessGo_eq quoted detected ps (ids ++ [p.id]) true]
    · by_cases hm : mediumB detected p
      · simp [guessGo, hs, hm, guessGo_eq quoted detected ps (ids ++ [p.id]) flag]
      · simp [guessGo, hs, hm, guessGo_eq quoted detected ps ids flag]

/-- C2 (amended): whenever at least one strong match exists,
`_guess_candidate_paper_ids` returns all matched paper ids — the strong
matches together with any medium (keyword) matches — deduplicated in
first-seen order; otherwise, with fewer than two matches it returns the
empty list, and with two or more it returns the medium-matched ids
deduplicated in first-seen order. -/
theorem guess_candidate_amended (papers : List Paper) (question : String) :
    guessCandidatePaperIds papers question = guessSpecAmended papers question := by
  unfold guessCandidatePaperIds guessSpecAmended
  dsimp only
  rw [guessGo_eq]
  by_cases ha : papers.any (strongB ((extractQuotedTitles question).map pyLowerStr)) <;>
    simp [ha]

/-- C2 counterexample: for `qC2` (a quoted title naming `paperS` plus
transformer keywords matching `paperM`), the function returns both ids
even though only `paperS` is a strong match, so the returned list is not
"exactly the strong-matched paper identifiers". -/
theorem guess_candidate_includes_medium_ids :
    guessCandidatePaperIds [paperM, paperS] qC2 = [1, 2] ∧
    strongB ((extractQuotedTitles qC2).map pyLowerStr) paperM = false ∧
    mediumB (detectedKeywords (pyLowerStr qC2)) paperM = true ∧
    strongB ((extractQuotedTitles qC2).map pyLowerStr) paperS = true := by decide

/-! ## Re-ranker theorems -/

/-- C7: `rerank_contexts` is the identity on the empty list, when
re-ranking is disabled by configuration, and when the cross-encoder raises
during scoring (modelled by `predict` returning `none`); in each case the
input contexts come back unchanged, in order, with no truncation. -/
theorem rerank_noop_cases (enabled : Bool)
    (predict : List (String × String) → Option (List ℚ)) (q : String)
    (contexts : List Context) (tk : Option Nat) :
    rerank_contexts enabled predict q [] tk = [] ∧
    (enabled = false → rerank_contexts enabled predict q contexts tk = contexts) ∧
    (predict (contexts.map (fun c => (q, c.text))) = none →
      rerank_contexts enabled predict q contexts tk = contexts) := by
  refine ⟨by simp [rerank_contexts], ?_, ?_⟩
  · intro h
    subst h
    simp [rerank_contexts]
  · intro hp
    unfold rerank_contexts
    rw [hp]
    simp

/-- C7 witness: the no-op theorem applied with re-ranking disabled, and
with a failing cross-encoder, on a concrete one-context list. -/
theorem rerank_noop_cases_witness :
    rerank_contexts false (fun _ => none) "q" [ctxA] (some 3) = [ctxA] ∧
    rerank_contexts true (fun _ => none) "q" [ctxA] (some 3) = [ctxA] :=
  ⟨(rerank_noop_cases false (fun _ => none) "q" [ctxA] (some 3)).2.1 rfl,
   (rerank_noop_cases true (fun _ => none) "q" [ctxA] (some 3)).2.2 rfl⟩

/-- C8 counterexample: with re-ranking enabled and a successful scorer,
`top_k = 0` is supplied but — under the code's Python truthiness check
`if top_k:` — no truncation happens: both contexts come back instead of
zero, so "truncated to top_k when top_k is given" fails at `top_k = 0`. -/
theorem rerank_topk_zero_not_truncated :
    (rerank_contexts true (fun _ => some [1, 2]) "q" [ctxA, ctxB] (some 0)).length = 2 := by
  decide

/-- C8 (amended): with re-ranking enabled and the cross-encoder succeeding
on a non-empty context list, every output context is a copy of an input
context with its vector score preserved under `original_score` and `score`
overwritten by that context's cross-encoder score; the output is sorted
descending by the new score; and it is truncated to `top_k` when `top_k`
is given and non-zero (zero is falsy in the code's `if top_k:` check). -/
theorem rerank_enabled_success_spec
    (predict : List (String × String) → Option (List ℚ)) (q : String)
    (contexts : List Context) (tk : Option Nat) (scores : List ℚ)
    (h2 : predict (contexts.map (fun c => (q, c.text))) = some scores)
    (h1 : contexts ≠ []) (h3 : scores.length = contexts.length) :
    (∀ c ∈ rerank_contexts true predict q contexts tk,
        ∃ p ∈ scores.zip contexts, c = applyCeScore p) ∧
    List.Sorted (fun a b => b.score ≤ a.score) (rerank_contexts true predict q contexts tk) ∧
    (rerank_contexts true predict q contexts tk).length =
      (match tk with
       | some k => if k ≠ 0 then min k contexts.length else contexts.length
       | none => contexts.length) := by
  have hins := List.sorted_insertionSort ceRel (scores.zip contexts)
  have hperm := List.perm_insertionSort ceRel (scores.zip contexts)
  have hmem : ∀ c ∈ (List.insertionSort ceRel (scores.zip contexts)).map applyCeScore,
      ∃ p ∈ scores.zip contexts, c = applyCeScore p := by
    intro c hc
    rw [List.mem_map] at hc
    obtain ⟨p, hp, he⟩ := hc
    exact ⟨p, hperm.mem_iff.mp hp, he.symm⟩
  have hsorted : List.Sorted (fun a b => b.score ≤ a.score)
      ((List.insertionSort ceRel (scores.zip contexts)).map applyCeScore) :=
    List.pairwise_map.mpr (hins.imp (fun h => h))
  have hlen : ((List.insertionSort ceRel (scores.zip contexts)).map applyCeScore).length =
      contexts.length := by
    rw [List.length_map, hperm.length_eq, List.length_zip, h3, min_self]
  have hbody : rerank_contexts true predict q contexts tk =
      (match tk with
       | some k =>
         if k ≠ 0 then ((List.insertionSort ceRel (scores.zip contexts)).map applyCeScore).take k
         else (List.insertionSort ceRel (scores.zip contexts)).map applyCeScore
       | none => (List.insertionSort ceRel (scores.zip contexts)).map applyCeScore) := by
    unfold rerank_contexts
    rw [if_neg (by simpa using h1)]
    rw [if_neg (by simp)]
    rw [h2]
  rcases tk with _ | k
  · rw [hbody]
    exact ⟨hmem, hsorted, hlen⟩
  · by_cases hk : k = 0
    · subst hk
      rw [hbody]
      simp only [ne_eq, not_true_eq_false, if_false, if_neg]
      exact ⟨hmem, hsorted, hlen⟩
    · rw [hbody]
      simp only [ne_eq, hk, not_false_eq_true, if_true, if_pos]
      refine ⟨?_, ?_, ?_⟩
      · intro c hc
        exact hmem c (List.mem_of_mem_take hc)
      · exact hsorted.sublist (List.take_sublist k _)
      · rw [List.length_take, hlen]

/-- C8 witness: the amended theorem applied to two concrete contexts,
concrete scores and `top_k` absent. -/
theorem rerank_enabled_success_spec_witness :
    (∀ c ∈ rerank_contexts true (fun _ => some [1, 2]) "q" [ctxA, ctxB] none,
        ∃ p ∈ ([(1 : ℚ), 2]).zip [ctxA, ctxB], c = applyCeScore p) ∧
    List.Sorted (fun a b => b.score ≤ a.score)
      (rerank_contexts true (fun _ => some [1, 2]) "q" [ctxA, ctxB] none) ∧
    (rerank_contexts true (fun _ => some [1, 2]) "q" [ctxA, ctxB] none).length = 2 :=
  rerank_enabled_success_spec (fun _ => some [1, 2]) "q" [ctxA, ctxB] none [1, 2]
    rfl (by decide) (by decide)

/-! ## Citation extraction theorems -/

theorem extractCitGo_eq (contexts : List Context) :
    ∀ (ms : List Nat) (cits : List Citation) (seenI : List Int) (seenN : List Nat),
      (∀ j : Int, j ∈ seenI ↔ ∃ n ∈ seenN, j = (n : Int) - 1) →
      (extractCitGo contexts ms (cits, seenI)).1 = cits ++ citationsSpec contexts seenN ms
  | [], cits, seenI, seenN, _ => by simp [extractCitGo, citationsSpec]
  | m :: ms, cits, seenI, seenN, hseen => by
    have hmem : ((m : Int) - 1 ∈ seenI) ↔ m ∈ seenN := by
      rw [hseen]
      constructor
      · rintro ⟨n, hn, he⟩
        have hmn : m = n := by omega
        rwa [hmn]
      · intro hm
        exact ⟨m, hm, rfl⟩
    by_cases hc : 1 ≤ m ∧ m ≤ contexts.length ∧ m ∉ seenN
    · obtain ⟨hc1, hc2, hc3⟩ := hc
      have hcode : 0 ≤ (m : Int) - 1 ∧ (m : Int) - 1 < contexts.length ∧
          (m : Int) - 1 ∉ seenI := by
        refine ⟨by omega, by omega, ?_⟩
        rw [hmem]
        exact hc3
      have htn : ((m : Int) - 1).toNat = m - 1 := by omega
      have hlt : m - 1 < contexts.length := by omega
      have hcget : contexts.get? (m - 1) = some (contexts.get ⟨m - 1, hlt⟩) :=
        List.get?_eq_get hlt
      have hseen' : ∀ j : Int, j ∈ seenI ++ [(m : Int) - 1] ↔
          ∃ n ∈ m :: seenN, j = (n : Int) - 1 := by
        intro j
        constructor
        · intro hj
          rcases List.mem_append.mp hj with hj | hj
          · obtain ⟨n, hn, he⟩ := (hseen j).mp hj
            exact ⟨n, List.mem_cons_of_mem _ hn, he⟩
          · exact ⟨m, List.mem_cons_self _ _, by simpa using hj⟩
        · rintro ⟨n, hn, he⟩
          rcases List.mem_cons.mp hn with rfl | hn
          · exact List.mem_append.mpr (Or.inr (by simpa using he))
          · exact List.mem_append.mpr (Or.inl ((hseen j).mpr ⟨n, hn, he⟩))
      unfold extractCitGo citationsSpec
      rw [if_pos hcode, htn, hcget, if_pos (show 1 ≤ m ∧ m ≤ contexts.length ∧ m ∉ seenN from
        ⟨hc1, hc2, hc3⟩)]
      dsimp only
      rw [extractCitGo_eq contexts ms _ _ (m :: seenN) hseen']
      simp
    · have hcode : ¬ (0 ≤ (m : Int) - 1 ∧ (m : Int) - 1 < contexts.length ∧
          (m : Int) - 1 ∉ seenI) := by
        rintro ⟨h1, h2, h3⟩
        refine hc ⟨by omega, by omega, ?_⟩
        rw [← hmem]
        exact h3
      unfold extractCitGo citationsSpec
      rw [if_neg hcode, if_neg hc]
      exact extractCitGo_eq contexts ms cits seenI seenN hseen

/-- C4: `extract_citations_from_answer` equals the spec's description —
it scans the text for every `(Source N)` occurrence case-insensitively and
emits, for each distinct in-range `N` in first-occurrence order, exactly
one citation populated from `contexts[N-1]` with `source_index = N`,
ignoring duplicates and out-of-range `N`. Concretely, for contexts
`[A, B, C]` and a text containing only `(Source 2)` the sole citation
carries B's fields with `source_index = 2`, and a text containing
`(Source 1)` twice yields exactly one citation. -/
theorem extract_citations_correct :
    (∀ (answer_text : String) (contexts : List Context),
        extract_citations_from_answer answer_text contexts =
          citationsSpec contexts [] (findSourceRefs answer_text)) ∧
    extract_citations_from_answer "The mechanism works (Source 2) well." [ctxA, ctxB, ctxC] =
      [{ paper_title := some "Attention Mechanisms", paper_filename := some "paper_2.pdf",
         paper_id := some 2, source_index := 2, sectionName := some "Methods",
         page := "5-6", relevance_score := round2 (39 / 50) }] ∧
    extract_citations_from_answer "See (Source 1) and also (Source 1)." [ctxA] =
      [buildCitation 0 ctxA] := by
  refine ⟨?_, by rfl, by rfl⟩
  intro ans contexts
  unfold extract_citations_from_answer
  rw [extractCitGo_eq contexts (findSourceRefs ans) [] [] [] (by simp)]
  simp

/-! ## Confidence theorems -/

theorem roundHalfEven_nonneg (x : ℚ) (hx : 0 ≤ x) : 0 ≤ roundHalfEven x := by
  unfold roundHalfEven
  rw [show Rat.floor x = ⌊x⌋ from rfl]
  dsimp only
  have h0 : 0 ≤ ⌊x⌋ := Int.floor_nonneg.mpr hx
  split_ifs <;> omega

theorem roundHalfEven_le_hundred (x : ℚ) (hx : x ≤ 100) : roundHalfEven x ≤ 100 := by
  unfold roundHalfEven
  rw [show Rat.floor x = ⌊x⌋ from rfl]
  dsimp only
  have h100 : ⌊x⌋ ≤ 100 := by
    have h := Int.floor_le_floor (α := ℚ) hx
    simpa using h
  have hfle : (⌊x⌋ : ℚ) ≤ x := Int.floor_le x
  have hf99 : (1 / 2 : ℚ) ≤ x - ⌊x⌋ → ⌊x⌋ ≤ 99 := by
    intro hh
    by_contra hcon
    push_neg at hcon
    have hcq : (100 : ℚ) ≤ (⌊x⌋ : ℚ) := by exact_mod_cast hcon
    linarith
  split_ifs with h1 h2 h3
  · exact h100
  · have := hf99 (le_of_lt h2)
    omega
  · exact h100
  · have := hf99 (not_lt.mp h1)
    omega

theorem round2_mem_unit (y : ℚ) (h0 : 0 ≤ y) (h1 : y ≤ 1) :
    0 ≤ round2 y ∧ round2 y ≤ 1 := by
  unfold round2
  have ha : 0 ≤ roundHalfEven (100 * y) := roundHalfEven_nonneg _ (by linarith)
  have hb : roundHalfEven (100 * y) ≤ 100 := roundHalfEven_le_hundred _ (by linarith)
  constructor
  · apply div_nonneg _ (by norm_num)
    exact_mod_cast ha
  · rw [div_le_one (by norm_num)]
    exact_mod_cast hb

/-- C5: `calculate_confidence` always lies in `[0, 1]`, is exactly `0` on
an empty context list, and on a non-empty list equals the spec's formula:
the inverse-rank-weighted sum of the top three scores divided by 3, plus
the 0.1 citation bonus, minus the 0.2 uncertainty penalty, clamped to
`[0, 1]` and rounded to two decimals. -/
theorem calculate_confidence_bounds (contexts : List Context) (answer_text : String) :
    0 ≤ calculate_confidence contexts answer_text ∧
    calculate_confidence contexts answer_text ≤ 1 ∧
    (contexts = [] → calculate_confidence contexts answer_text = 0) ∧
    (contexts ≠ [] → calculate_confidence contexts answer_text =
      confidenceSpec contexts answer_text) := by
  by_cases hc : contexts = []
  · subst hc
    refine ⟨le_refl 0, zero_le_one, fun _ => rfl, fun h => absurd rfl h⟩
  · unfold calculate_confidence
    rw [if_neg hc]
    dsimp only
    have hy0 : 0 ≤ min 1 (max 0
        ((((contexts.take 3).enum).map
            (fun ic => ic.2.score * (1 / ((ic.1 : ℚ) + 1)))).sum / 3 +
          (if findSourceRefs answer_text ≠ [] then 1 / 10 else 0) +
          (if uncertaintyPhrases.any (fun p => containsStr (pyLowerStr answer_text) p)
            then -(1 / 5) else 0))) :=
      le_min zero_le_one (le_max_left 0 _)
    have hy1 : min 1 (max 0
        ((((contexts.take 3).enum).map
            (fun ic => ic.2.score * (1 / ((ic.1 : ℚ) + 1)))).sum / 3 +
          (if findSourceRefs answer_text ≠ [] then 1 / 10 else 0) +
          (if uncertaintyPhrases.any (fun p => containsStr (pyLowerStr answer_text) p)
            then -(1 / 5) else 0))) ≤ 1 :=
      min_le_left 1 _
    obtain ⟨hb0, hb1⟩ := round2_mem_unit _ hy0 hy1
    refine ⟨hb0, hb1, fun h => absurd h hc, fun _ => ?_⟩
    unfold confidenceSpec
    dsimp only
    have hfun : (fun ic : ℕ × Context => ic.2.score * (1 / ((ic.1 : ℚ) + 1))) =
        (fun ic : ℕ × Context => ic.2.score / ((ic.1 : ℚ) + 1)) :=
      funext fun ic => mul_one_div _ _
    rw [hfun]
    by_cases hu : uncertaintyPhrases.any (fun p => containsStr (pyLowerStr answer_text) p) = true
    · rw [if_pos hu, if_pos hu]
      rw [sub_eq_add_neg]
    · rw [if_neg hu, if_neg hu]
      rw [sub_zero, add_zero]

/-- C5 witness: the bounds theorem applied at an empty context list (value
exactly 0) and at a concrete non-empty list (agreement with the spec
formula). -/
theorem calculate_confidence_bounds_witness :
    calculate_confidence [] "no context" = 0 ∧
    ([ctxA] : List Context) ≠ [] ∧
    calculate_confidence [ctxA] "see (Source 1)" = confidenceSpec [ctxA] "see (Source 1)" :=
  ⟨(calculate_confidence_bounds [] "no context").2.2.1 rfl,
   by decide,
   (calculate_confidence_bounds [ctxA] "see (Source 1)").2.2.2 (by decide)⟩

/-! ## Answer synthesizer theorems -/

theorem guardCond_iff (query : String) : guardCond query ↔ guardBool query = true := by
  unfold guardCond guardBool
  dsimp only
  rw [Bool.or_eq_true, decide_eq_true_eq, List.any_eq_true]
  constructor
  · rintro (h | h | ⟨p, hp, h | h⟩)
    · left
      rw [h]
      simp
    · exact Or.inl h
    · refine Or.inr ⟨p, hp, ?_⟩
      rw [Bool.or_eq_true, beq_iff_eq]
      exact Or.inl h
    · refine Or.inr ⟨p, hp, ?_⟩
      rw [Bool.or_eq_true]
      exact Or.inr h
  · rintro (h | ⟨p, hp, h⟩)
    · exact Or.inr (Or.inl h)
    · rw [Bool.or_eq_true, beq_iff_eq] at h
      rcases h with h | h
      · exact Or.inr (Or.inr ⟨p, hp, Or.inl h⟩)
      · exact Or.inr (Or.inr ⟨p, hp, Or.inr h⟩)

/-- C9: when the trimmed lower-cased query is empty, shorter than five
characters, or matches the fixed greeting / small-talk set, `answer`
short-circuits at the Guard: for every environment it returns the canned
helpful result (empty citations and sources, zero confidence) and the
empty call log — no scope detection, retrieval, re-ranking or generation
call is performed. -/
theorem answer_guard_shortcircuit (env : Env) (query model : String) (top_k : Nat)
    (paper_ids : Option (List Int)) (h : guardCond query) :
    answerImpl env query model top_k paper_ids = (guardResult, []) := by
  unfold answerImpl
  rw [if_pos ((guardCond_iff query).mp h)]

/-- C9 witness: the guard theorem applied at the query `"hi"` under the
stub environment. -/
theorem answer_guard_shortcircuit_witness :
    guardCond "hi" ∧ answerImpl envW "hi" "llama3" 5 none = (guardResult, []) :=
  ⟨by decide, answer_guard_shortcircuit envW "hi" "llama3" 5 none (by decide)⟩

/-- C3 counterexample: on the Guard short-circuit path the result dict has
no `paper_ids_used` key (modelled as `none`), so the claim that every
result of `answer` contains `paper_ids_used` fails at the query `"hi"`. -/
theorem answer_guard_lacks_paper_ids_used :
    (answerImpl envW "hi" "llama3" 5 none).1.paper_ids_used = none := by decide

/-- C3 (amended): only the full-pipeline result of `answer` carries
`paper_ids_used` — the unique paper ids across the surviving contexts; the
Guard short-circuit result and the no-relevant-context result omit the
`paper_ids_used` key (they hold only answer, citations, sources_used and
confidence). -/
theorem answer_paper_ids_used_by_path (env : Env) (query model : String) (top_k : Nat)
    (paper_ids : Option (List Int)) :
    (guardCond query → (answerImpl env query model top_k paper_ids).1.paper_ids_used = none) ∧
    (¬ guardCond query → survivingContexts env query top_k paper_ids = [] →
      (answerImpl env query model top_k paper_ids).1.paper_ids_used = none) ∧
    (¬ guardCond query → survivingContexts env query top_k paper_ids ≠ [] →
      (answerImpl env query model top_k paper_ids).1.paper_ids_used =
        some (dedupFirstSeen
          ((survivingContexts env query top_k paper_ids).filterMap Context.paper_id))) := by
  unfold survivingContexts
  refine ⟨?_, ?_, ?_⟩
  · intro h
    unfold answerImpl
    rw [if_pos ((guardCond_iff query).mp h)]
    rfl
  · intro h hs
    unfold answerImpl
    rw [if_neg (fun hb => h ((guardCond_iff query).mpr hb))]
    dsimp only
    rw [if_pos hs]
    rfl
  · intro h hs
    unfold answerImpl
    rw [if_neg (fun hb => h ((guardCond_iff query).mpr hb))]
    dsimp only
    rw [if_neg hs]

/-- C3 witness: the amended theorem's full-path conjunct applied to the
stub environment (retrieval returns one context with paper id 7) and a
substantive query. -/
theorem answer_paper_ids_used_by_path_witness :
    ¬ guardCond qW ∧ survivingContexts envW qW 5 none ≠ [] ∧
    (answerImpl envW qW "llama3" 5 none).1.paper_ids_used =
      some (dedupFirstSeen ((survivingContexts envW qW 5 none).filterMap Context.paper_id)) :=
  ⟨by decide, by decide,
   (answer_paper_ids_used_by_path envW qW "llama3" 5 none).2.2 (by decide) (by decide)⟩

end RagAssess
